import Mathlib

/-!
Formal model of the feature-gated block-schema resolution core of
`wagtail-jetstream` (`src/jetstream/blocks.py` and `src/jetstream/utils.py`).

Child block schemas are modelled by their admin-facing metadata (`meta.label`,
`meta.group`); a `FeatureCustomizedStreamBlock` holds its class-declared
`base_blocks` and the `local_blocks` passed to `__init__`, from which the
`_child_blocks` ordered mapping is built exactly as in `__init__`
(shallow copy of `base_blocks`, then insert-or-overwrite each local block,
preserving `OrderedDict` key positions).  The ambient request / site-features
state probed by the `child_blocks` property is reified as a `FeatureContext`.
Python's stable `sorted` is modelled by a stable insertion sort
(`sortBy`): stable sorting by a key is deterministic, so any stable sort
gives the same list as CPython's sort.  A raising key function
(`sort_groups`) is modelled with `Except`, and `sorted(xs, key=f)` as
CPython implements it: all keys are computed first, in list order (the
first failing key aborts), then the decorated list is sorted stably by key.
-/

namespace Jetstream

/-- Metadata of a child block schema: `meta.label` and `meta.group` as used by
`FeatureCustomizedStreamBlock.sorted_child_blocks`. -/
structure ChildBlock where
  label : String
  group : String
deriving DecidableEq

/-- A `FeatureCustomizedStreamBlock`: the class-declared `base_blocks` and the
`local_blocks` argument of `__init__`.  `__init__` performs no validation of
groups; it only assembles `_child_blocks`. -/
structure FeatureCustomizedStreamBlock where
  base_blocks : List (String × ChildBlock)
  local_blocks : List (String × ChildBlock)
deriving DecidableEq

/-- The ambient state probed by the `child_blocks` property:
either no current request is bound, or a request exists but
`Site.find_for_request(request).features` raises
`RelatedObjectDoesNotExist` (no feature registry configured for the site),
or a feature registry is bound, giving `feature_is_enabled` per block name. -/
inductive FeatureContext where
  | noRequest : FeatureContext
  | noFeatureRegistry : FeatureContext
  | registry (feature_is_enabled : String → Bool) : FeatureContext

namespace FeatureCustomizedStreamBlock

/-- Assignment `d[name] = b` on an `OrderedDict` represented as an association
list: overwriting an existing key keeps its position, a new key is appended. -/
def odAssign (d : List (String × ChildBlock)) (name : String) (b : ChildBlock) :
    List (String × ChildBlock) :=
  if d.any (fun p => p.1 == name) then
    d.map (fun p => if p.1 == name then (name, b) else p)
  else
    d ++ [(name, b)]

/-- The `_child_blocks` ordered mapping assembled by `__init__`: a copy of
`base_blocks`, then each `(name, block)` of `local_blocks` assigned in order. -/
def _child_blocks (s : FeatureCustomizedStreamBlock) : List (String × ChildBlock) :=
  s.local_blocks.foldl (fun d p => odAssign d p.1 p.2) s.base_blocks

/-- The `child_blocks` property: with no current request, or with a site that
has no feature registry, return `_child_blocks` unfiltered; under a bound
registry keep exactly the items whose name is feature-enabled. -/
def child_blocks (s : FeatureCustomizedStreamBlock) (ctx : FeatureContext) :
    List (String × ChildBlock) :=
  match ctx with
  | .noRequest => s._child_blocks
  | .noFeatureRegistry => s._child_blocks
  | .registry feature_is_enabled =>
      s._child_blocks.filter (fun item => feature_is_enabled item.1)

/-- The `GROUP_SORT_VALUES` table keying group strings to sort values. -/
def GROUP_SORT_VALUES : List (String × Nat) :=
  [("", 0), ("Basic", 10), ("Multimedia", 20), ("Navigation", 30),
   ("News & Calendar", 40), ("Social Media", 50), ("Misc", 60), ("Special", 70)]

/-- Dictionary lookup `GROUP_SORT_VALUES[g]`, `none` on a `KeyError`. -/
def groupSortValue (g : String) : Option Nat :=
  (GROUP_SORT_VALUES.find? (fun p => p.1 == g)).map (fun p => p.2)

end FeatureCustomizedStreamBlock

/-- The `UnknownBlockGroupError` raised by `sorted_child_blocks`, carrying its
message. -/
structure UnknownBlockGroupError where
  message : String
deriving DecidableEq

/-- The message interpolated by `sorted_child_blocks` for an unknown group. -/
def unknownGroupMessage (g : String) : String :=
  "The group \"" ++ g ++ "\" is not in FeatureCustomizedStreamBlock.GROUP_SORT_VALUES." ++
  " Please either rename the group to match that the ones in that dict, or add \"" ++
  g ++ "\" to it."

namespace FeatureCustomizedStreamBlock

/-- The `sort_groups` key function of `sorted_child_blocks`: the group's sort
value, or an `UnknownBlockGroupError` on a `KeyError`. -/
def sort_groups (child_block : ChildBlock) : Except UnknownBlockGroupError Nat :=
  match groupSortValue child_block.group with
  | some v => Except.ok v
  | none => Except.error ⟨unknownGroupMessage child_block.group⟩

/-- Stable insertion of `a` into `s` for the strict key comparison `lt`:
`a` goes after every element strictly smaller than it, and before the first
element not strictly smaller (so equal-key elements already present stay
before `a`, matching Python's stable sort). -/
def insertStable (lt : α → α → Bool) (a : α) : List α → List α
  | [] => [a]
  | b :: bs => if lt b a then b :: insertStable lt a bs else a :: b :: bs

/-- Stable sort by the strict comparison `lt`; models Python's stable
`sorted`, whose output is determined by the key order alone. -/
def sortBy (lt : α → α → Bool) : List α → List α
  | [] => []
  | a :: as => insertStable lt a (sortBy lt as)

/-- Bool form of `String` lexicographic `<` (code-point order), as Python
compares `str` keys.  Stated on the underlying character list so that it
evaluates by kernel reduction; `strLt_iff` below identifies it with the
order on `String`. -/
def strLt (a b : String) : Bool := decide (a.data < b.data)

/-- Key computation of CPython's `sorted(xs, key=f)`: decorate each element
with its key, in list order, aborting at the first raising key
(`sort_groups` here). -/
def decorateAll : List ChildBlock → Except UnknownBlockGroupError (List (Nat × ChildBlock))
  | [] => Except.ok []
  | b :: bs =>
    match sort_groups b with
    | Except.error e => Except.error e
    | Except.ok v =>
      match decorateAll bs with
      | Except.error e => Except.error e
      | Except.ok rest => Except.ok ((v, b) :: rest)

/-- `sorted_child_blocks`: the visible child block values sorted by label,
then stably sorted by `sort_groups`; a child with an unknown group raises
`UnknownBlockGroupError` (the first such child in label order, since CPython
computes all keys, in list order, before sorting the decorated list). -/
def sorted_child_blocks (s : FeatureCustomizedStreamBlock) (ctx : FeatureContext) :
    Except UnknownBlockGroupError (List ChildBlock) :=
  let byLabel := sortBy (fun a b => strLt a.label b.label)
    ((s.child_blocks ctx).map (fun p => p.2))
  match decorateAll byLabel with
  | Except.error e => Except.error e
  | Except.ok decorated =>
      Except.ok ((sortBy (fun a b => decide (a.1 < b.1)) decorated).map (fun p => p.2))

end FeatureCustomizedStreamBlock

/-- Machine-name data of a block class: the value of
`get_block_machine_name()` and the first element of `get_block_tuple()`. -/
structure BlockTupleInfo where
  get_block_machine_name : String
  get_block_tuple_fst : String
deriving DecidableEq

/-- Default `BlockTupleMixin` behavior from `jetstream/utils.py`: both the
machine name and the tuple's first element are the class `__name__`. -/
def blockTupleMixinDefault (className : String) : BlockTupleInfo :=
  ⟨className, className⟩

/-- `BaseTwoColumnSubBlock` overrides both mixin methods to use the machine
name 'two_column_layout'. -/
def BaseTwoColumnSubBlock : BlockTupleInfo :=
  ⟨"two_column_layout", "two_column_layout"⟩

/-- `BaseTwoColumnBlock` overrides both mixin methods to use the machine
name 'two_column_layout'. -/
def BaseTwoColumnBlock : BlockTupleInfo :=
  ⟨"two_column_layout", "two_column_layout"⟩

/-- `BaseThreeColumnSubBlock` overrides both mixin methods to use the
machine name 'three_column_layout'. -/
def BaseThreeColumnSubBlock : BlockTupleInfo :=
  ⟨"three_column_layout", "three_column_layout"⟩

/-- `BaseThreeColumnBlock` overrides both mixin methods to use the machine
name 'three_column_layout'. -/
def BaseThreeColumnBlock : BlockTupleInfo :=
  ⟨"three_column_layout", "three_column_layout"⟩

/-- Outcome of a style-dispatched render: a style-specific template plus the
joined extra CSS classes, or the generic `render_basic` fallback. -/
inductive RenderResult where
  | styled (template : String) (extra_classes : String) : RenderResult
  | basic : RenderResult
deriving DecidableEq

namespace ImagePanelBlock

/-- The `STYLES` tuples of `ImagePanelBlock`: (key, label, template, extra
classes). -/
def STYLES : List (String × String × String × List String) :=
  [("link", "Image Link", "jetstream/blocks/image_panel_block-link.html", []),
   ("captioned", "Image w/ Caption", "jetstream/blocks/image_panel_block-caption.html", []),
   ("rollover", "Image Link w/ Rollover Text",
     "jetstream/blocks/image_panel_block-rollover.html", []),
   ("separate_text", "Image Card (Equal Heights)",
     "jetstream/blocks/image_panel_block-card.html", ["equal"]),
   ("separate_text_natural", "Image Card (Natural Heights)",
     "jetstream/blocks/image_panel_block-card.html", ["natural"]),
   ("image_listing_left", "Listing (Image Left)",
     "jetstream/blocks/image_panel_block-listing.html", ["left"]),
   ("image_listing_right", "Listing (Image Right)",
     "jetstream/blocks/image_panel_block-listing.html", ["right"])]

/-- The `style_to_template_map` dict comprehension of
`ImagePanelBlock.render`, as a lookup from style key to (template, extra
classes). -/
def style_to_template_map (key : String) : Option (String × List String) :=
  (STYLES.find? (fun st => st.1 == key)).map (fun st => (st.2.2.1, st.2.2.2))

/-- `ImagePanelBlock.render`: template dispatch on the populated style
value, falling back to `render_basic` when the style key is unknown. -/
def render (style : String) : RenderResult :=
  match style_to_template_map style with
  | some (template, extra_classes) =>
      RenderResult.styled template (String.intercalate " " extra_classes)
  | none => RenderResult.basic

end ImagePanelBlock

/-- Outcome of `ImageGalleryBlock.render`: the styled branch also computes
the bootstrap column width `int(12 / columns)`. -/
inductive GalleryRenderResult where
  | styled (template : String) (extra_classes : String)
      (bootstrap_column_width : Nat) : GalleryRenderResult
  | basic : GalleryRenderResult
deriving DecidableEq

namespace ImageGalleryBlock

/-- The `STYLES` tuples of `ImageGalleryBlock`. -/
def STYLES : List (String × String × String × List String) :=
  [("gallery", "Image Gallery", "jetstream/blocks/image_gallery_block-gallery.html", []),
   ("slider", "Image Slider w/ Thumbnail Picker",
     "jetstream/blocks/image_gallery_block-slider.html", [])]

/-- The `style_to_template_map` dict comprehension of
`ImageGalleryBlock.render`. -/
def style_to_template_map (key : String) : Option (String × List String) :=
  (STYLES.find? (fun st => st.1 == key)).map (fun st => (st.2.2.1, st.2.2.2))

/-- `ImageGalleryBlock.render`: template dispatch on the populated style
value, falling back to `render_basic` when the style key is unknown. -/
def render (style : String) (columns : Nat) : GalleryRenderResult :=
  match style_to_template_map style with
  | some (template, extra_classes) =>
      GalleryRenderResult.styled template (String.intercalate " " extra_classes)
        (12 / columns)
  | none => GalleryRenderResult.basic

end ImageGalleryBlock

/-- Outcome of `SectionTitleBlock.render`: its styled branch carries only a
template. -/
inductive SectionTitleRenderResult where
  | styled (template : String) : SectionTitleRenderResult
  | basic : SectionTitleRenderResult
deriving DecidableEq

namespace SectionTitleBlock

/-- The `STYLES` dict of `SectionTitleBlock`, mapping style key to
template. -/
def STYLES : List (String × String) :=
  [("section_divider", "jetstream/blocks/section_title-section_divider.html"),
   ("block_header", "jetstream/blocks/section_title-block_header.html")]

/-- `SectionTitleBlock.render`: template dispatch via `self.STYLES`, falling
back to `render_basic` on a `KeyError`. -/
def render (style : String) : SectionTitleRenderResult :=
  match (STYLES.find? (fun p => p.1 == style)).map (fun p => p.2) with
  | some template => SectionTitleRenderResult.styled template
  | none => SectionTitleRenderResult.basic

end SectionTitleBlock

namespace FeatureCustomizedStreamBlock

/-- The group rank used in the ordering statements: the `GROUP_SORT_VALUES`
entry of a group (every group of a successfully sorted child is in the
table, so the default is never exercised there). -/
def rankOf (g : String) : Nat := (groupSortValue g).getD 0

end FeatureCustomizedStreamBlock

/-- Concrete container for the C1 witness. -/
def c1Example : FeatureCustomizedStreamBlock :=
  ⟨[], [("quux_widget", ⟨"Quux", "Basic"⟩)]⟩

/-- Concrete container for the C9 witness. -/
def c9Example : FeatureCustomizedStreamBlock :=
  ⟨[("intro_text", ⟨"Intro Text", "Basic"⟩)],
   [("photo_strip", ⟨"Photo Strip", "Multimedia"⟩)]⟩

/-- Concrete container with two same-group children sharing one label. -/
def c2DupExample : FeatureCustomizedStreamBlock :=
  ⟨[], [("first_twin", ⟨"Same", "Basic"⟩), ("second_twin", ⟨"Same", "Basic"⟩)]⟩

/-- The scenario container of the claim: children A (Basic, "Zed"),
B (Basic, "Alpha"), C (Multimedia, "Anything"). -/
def scenarioBlock : FeatureCustomizedStreamBlock :=
  ⟨[], [("a_widget", ⟨"Zed", "Basic"⟩), ("b_widget", ⟨"Alpha", "Basic"⟩),
        ("c_widget", ⟨"Anything", "Multimedia"⟩)]⟩

/-- The sorted output of the scenario container: [B, A, C]. -/
def scenarioSorted : List ChildBlock :=
  [⟨"Alpha", "Basic"⟩, ⟨"Zed", "Basic"⟩, ⟨"Anything", "Multimedia"⟩]

/-- Concrete container mixing an ungrouped child and a Basic-group child. -/
def c10Example : FeatureCustomizedStreamBlock :=
  ⟨[], [("basic_child", ⟨"Bee", "Basic"⟩), ("plain_child", ⟨"Ay", ""⟩)]⟩

/-- The sorted output of `c10Example`: the ungrouped child first. -/
def c10Sorted : List ChildBlock := [⟨"Ay", ""⟩, ⟨"Bee", "Basic"⟩]

/-- Concrete container with a typoed group for the C4 witness. -/
def c4Example : FeatureCustomizedStreamBlock :=
  ⟨[], [("typoed_widget", ⟨"Typoed", "Basick"⟩)]⟩

/-- Concrete container declared with an unknown group for C8. -/
def c8Example : FeatureCustomizedStreamBlock :=
  ⟨[], [("mistyped_widget", ⟨"Mistyped", "Bogus Group"⟩)]⟩

namespace FeatureCustomizedStreamBlock

/-- The Bool comparison `strLt` decides the lexicographic order on
`String`. -/
theorem strLt_true_iff (a b : String) : strLt a b = true ↔ a < b := by
  simp [strLt, String.lt_iff_toList_lt, String.toList]

/-- Negative form of `strLt_true_iff`. -/
theorem strLt_false_iff (a b : String) : strLt a b = false ↔ ¬a < b := by
  rw [← strLt_true_iff]
  simp

/-- Membership in a stable insertion. -/
theorem mem_insertStable (lt : α → α → Bool) (a x : α) :
    ∀ s : List α, x ∈ insertStable lt a s ↔ x = a ∨ x ∈ s
  | [] => by simp [insertStable]
  | b :: bs => by
    simp only [insertStable]
    by_cases hba : lt b a = true
    · rw [if_pos hba]
      simp only [List.mem_cons, mem_insertStable lt a x bs]
      tauto
    · rw [if_neg hba]
      simp only [List.mem_cons]

/-- Membership is preserved by the stable sort. -/
theorem mem_sortBy (lt : α → α → Bool) (x : α) :
    ∀ l : List α, x ∈ sortBy lt l ↔ x ∈ l
  | [] => Iff.rfl
  | a :: as => by
    simp only [sortBy, mem_insertStable, List.mem_cons, mem_sortBy lt x as]

/-- Inserting into a list sorted for `lt` preserves both sortedness and any
pairwise relation `M` that `a` enjoys against smaller and not-smaller
elements. -/
theorem insertStable_pairwise (lt : α → α → Bool) (M : α → α → Prop)
    (htrans : ∀ x y z, lt y x = false → lt z y = false → lt z x = false)
    (hasym : ∀ x y, lt x y = true → lt y x = false) (a : α) :
    ∀ s : List α,
      s.Pairwise (fun x y => lt y x = false) →
      s.Pairwise M →
      (∀ b ∈ s, lt b a = true → M b a) →
      (∀ b ∈ s, lt b a = false → M a b) →
      (insertStable lt a s).Pairwise M ∧
        (insertStable lt a s).Pairwise (fun x y => lt y x = false)
  | [], _, _, _, _ => by simp [insertStable]
  | b :: bs, hs, hM, hlt, hge => by
    rw [List.pairwise_cons] at hs hM
    obtain ⟨hb_bs, hbs⟩ := hs
    obtain ⟨hMb, hMbs⟩ := hM
    simp only [insertStable]
    by_cases hba : lt b a = true
    · rw [if_pos hba]
      have ih := insertStable_pairwise lt M htrans hasym a bs hbs hMbs
        (fun c hc h => hlt c (List.mem_cons_of_mem b hc) h)
        (fun c hc h => hge c (List.mem_cons_of_mem b hc) h)
      constructor
      · rw [List.pairwise_cons]
        refine ⟨fun y hy => ?_, ih.1⟩
        rcases (mem_insertStable lt a y bs).mp hy with h | h
        · exact h ▸ hlt b (List.mem_cons_self b bs) hba
        · exact hMb y h
      · rw [List.pairwise_cons]
        refine ⟨fun y hy => ?_, ih.2⟩
        rcases (mem_insertStable lt a y bs).mp hy with h | h
        · exact h ▸ hasym b a hba
        · exact hb_bs y h
    · rw [if_neg hba]
      have hba' : lt b a = false := Bool.eq_false_iff.mpr hba
      have hya : ∀ y ∈ bs, lt y a = false := fun y hy => htrans a b y hba' (hb_bs y hy)
      constructor
      · rw [List.pairwise_cons]
        refine ⟨fun y hy => ?_, List.pairwise_cons.mpr ⟨hMb, hMbs⟩⟩
        rcases List.mem_cons.mp hy with h | h
        · exact h ▸ hge b (List.mem_cons_self b bs) hba'
        · exact hge y (List.mem_cons_of_mem b h) (hya y h)
      · rw [List.pairwise_cons]
        refine ⟨fun y hy => ?_, List.pairwise_cons.mpr ⟨hb_bs, hbs⟩⟩
        rcases List.mem_cons.mp hy with h | h
        · exact h ▸ hba'
        · exact hya y h

/-- Stable sorting establishes the relation `M` pairwise, provided elements
strictly below one another satisfy `M`, and input-ordered pairs (`L`, e.g. a
previous sorting pass) that are not strictly reordered also satisfy `M`.
This captures both sortedness and stability of `sortBy`. -/
theorem sortBy_pairwise (lt : α → α → Bool) (L M : α → α → Prop)
    (htrans : ∀ x y z, lt y x = false → lt z y = false → lt z x = false)
    (hasym : ∀ x y, lt x y = true → lt y x = false)
    (hltM : ∀ x y, lt x y = true → M x y)
    (hgeM : ∀ x y, L x y → lt y x = false → M x y) :
    ∀ l : List α, l.Pairwise L →
      (sortBy lt l).Pairwise M ∧ (sortBy lt l).Pairwise (fun x y => lt y x = false)
  | [], _ => by simp [sortBy]
  | a :: as, hL => by
    rw [List.pairwise_cons] at hL
    obtain ⟨hLa, hLas⟩ := hL
    have ih := sortBy_pairwise lt L M htrans hasym hltM hgeM as hLas
    simp only [sortBy]
    exact insertStable_pairwise lt M htrans hasym a (sortBy lt as) ih.2 ih.1
      (fun b _ h => hltM b a h)
      (fun b hb h => hgeM a b (hLa b ((mem_sortBy lt b as).mp hb)) h)

/-- A successful decoration pass keeps the list intact and records the group
sort value of every element. -/
theorem decorateAll_ok :
    ∀ {l : List ChildBlock} {d : List (Nat × ChildBlock)},
      decorateAll l = Except.ok d →
      d.map (fun p => p.2) = l ∧ ∀ p ∈ d, groupSortValue p.2.group = some p.1
  | [], d, h => by
    simp only [decorateAll, Except.ok.injEq] at h
    subst h
    simp
  | b :: bs, d, h => by
    simp only [decorateAll] at h
    rcases hb : sort_groups b with e | v <;> rw [hb] at h
    · exact absurd h (by simp)
    · rcases hres : decorateAll bs with e | rest <;> rw [hres] at h
      · exact absurd h (by simp)
      · have ih := decorateAll_ok hres
        simp only [Except.ok.injEq] at h
        subst h
        refine ⟨by simp [ih.1], fun p hp => ?_⟩
        rcases List.mem_cons.mp hp with h | h
        · subst h
          simp only [sort_groups] at hb
          rcases hg : groupSortValue b.group with _ | w <;> rw [hg] at hb <;> simp_all
        · exact ih.2 p h

/-- If any element of the list has an unknown group, the decoration pass
fails with an `UnknownBlockGroupError` naming the group of some such
element (the first one in list order). -/
theorem decorateAll_error_of_mem :
    ∀ {l : List ChildBlock} {b : ChildBlock}, b ∈ l → groupSortValue b.group = none →
      ∃ g, (∃ c ∈ l, c.group = g) ∧ groupSortValue g = none ∧
        decorateAll l = Except.error ⟨unknownGroupMessage g⟩
  | [], b, hb, _ => absurd hb (List.not_mem_nil b)
  | c :: cs, b, hb, he => by
    rcases hc : sort_groups c with e | v
    · have hcmsg : sort_groups c = Except.error ⟨unknownGroupMessage c.group⟩ ∧
          groupSortValue c.group = none := by
        rcases hg : groupSortValue c.group with _ | v
        · exact ⟨by simp [sort_groups, hg], rfl⟩
        · simp [sort_groups, hg] at hc
      refine ⟨c.group, ⟨c, List.mem_cons_self c cs, rfl⟩, hcmsg.2, ?_⟩
      simp [decorateAll, hcmsg.1]
    · have hbc : b ≠ c := by
        intro hcon
        subst hcon
        simp [sort_groups, he] at hc
      have hbcs : b ∈ cs := (List.mem_cons.mp hb).resolve_left hbc
      obtain ⟨g, ⟨x, hx, hxg⟩, hgnone, hrec⟩ := decorateAll_error_of_mem hbcs he
      exact ⟨g, ⟨x, List.mem_cons_of_mem c hx, hxg⟩, hgnone,
        by simp only [decorateAll, hc, hrec]⟩

/-- Distinct keys of `GROUP_SORT_VALUES` carry distinct sort values, so the
group can be recovered from its sort value. -/
theorem groupSortValue_inj {g₁ g₂ : String} {r : Nat}
    (h₁ : groupSortValue g₁ = some r) (h₂ : groupSortValue g₂ = some r) : g₁ = g₂ := by
  have key : ∀ p ∈ GROUP_SORT_VALUES, ∀ q ∈ GROUP_SORT_VALUES, p.2 = q.2 → p.1 = q.1 := by
    decide
  simp only [groupSortValue, Option.map_eq_some'] at h₁ h₂
  obtain ⟨p, hp, hpr⟩ := h₁
  obtain ⟨q, hq, hqr⟩ := h₂
  have hpmem := List.mem_of_find?_eq_some hp
  have hqmem := List.mem_of_find?_eq_some hq
  have hpg : p.1 = g₁ := by simpa using List.find?_some hp
  have hqg : q.1 = g₂ := by simpa using List.find?_some hq
  rw [← hpg, ← hqg]
  exact key p hpmem q hqmem (hpr.trans hqr.symm)


/-- Structure of a successful `sorted_child_blocks` result: the output is the
projection of a decorated list that records each child's group sort value and
is pairwise ordered by rank, with equal ranks tie-broken by the label order
of the preceding label-sorting pass. -/
theorem sorted_child_blocks_ok_struct (s : FeatureCustomizedStreamBlock)
    (ctx : FeatureContext) (l : List ChildBlock)
    (h : s.sorted_child_blocks ctx = Except.ok l) :
    ∃ d : List (Nat × ChildBlock),
      l = d.map (fun p => p.2) ∧
      (∀ p ∈ d, groupSortValue p.2.group = some p.1) ∧
      d.Pairwise (fun p q => p.1 < q.1 ∨ (p.1 = q.1 ∧ ¬(q.2.label < p.2.label))) := by
  simp only [sorted_child_blocks] at h
  rcases hdec : decorateAll (sortBy (fun a b => strLt a.label b.label)
      ((s.child_blocks ctx).map (fun p => p.2))) with e | decorated <;> rw [hdec] at h
  · exact absurd h (by simp)
  · simp only [Except.ok.injEq] at h
    obtain ⟨hmap, hranks⟩ := decorateAll_ok hdec
    have htriv : ((s.child_blocks ctx).map (fun p => p.2)).Pairwise
        (fun _ _ : ChildBlock => True) :=
      List.pairwise_iff_get.mpr (fun _ _ _ => trivial)
    have hlabel := sortBy_pairwise (fun a b : ChildBlock => strLt a.label b.label)
      (fun _ _ => True) (fun a b => strLt b.label a.label = false)
      (by
        intro x y z hyx hzy
        rw [strLt_false_iff, not_lt] at hyx hzy ⊢
        exact le_trans hyx hzy)
      (by
        intro x y hxy
        rw [strLt_true_iff] at hxy
        rw [strLt_false_iff, not_lt]
        exact le_of_lt hxy)
      (fun x y hxy => by
        rw [strLt_true_iff] at hxy
        rw [strLt_false_iff, not_lt]
        exact le_of_lt hxy)
      (fun x y _ hyx => hyx)
      ((s.child_blocks ctx).map (fun p => p.2)) htriv
    have hdecorated : decorated.Pairwise
        (fun p q : Nat × ChildBlock => strLt q.2.label p.2.label = false) := by
      have := hlabel.1
      rw [← hmap, List.pairwise_map] at this
      exact this
    have hfinal := sortBy_pairwise (fun p q : Nat × ChildBlock => decide (p.1 < q.1))
      (fun p q : Nat × ChildBlock => strLt q.2.label p.2.label = false)
      (fun p q : Nat × ChildBlock => p.1 < q.1 ∨ (p.1 = q.1 ∧ ¬(q.2.label < p.2.label)))
      (by
        intro x y z hyx hzy
        simp only [decide_eq_false_iff_not, not_lt] at hyx hzy ⊢
        exact le_trans hyx hzy)
      (by
        intro x y hxy
        simp only [decide_eq_true_eq, decide_eq_false_iff_not, not_lt] at hxy ⊢
        exact le_of_lt hxy)
      (by
        intro x y hxy
        simp only [decide_eq_true_eq] at hxy
        exact Or.inl hxy)
      (by
        intro x y hL hyx
        simp only [decide_eq_false_iff_not, not_lt] at hyx
        rcases lt_or_eq_of_le hyx with hlt | heq
        · exact Or.inl hlt
        · exact Or.inr ⟨heq, (strLt_false_iff _ _).mp hL⟩)
      decorated hdecorated
    refine ⟨sortBy (fun p q : Nat × ChildBlock => decide (p.1 < q.1)) decorated,
      h.symm, fun p hp => ?_, hfinal.1⟩
    exact hranks p ((mem_sortBy _ p decorated).mp hp)

end FeatureCustomizedStreamBlock

open FeatureCustomizedStreamBlock

/-- C1: for every FeatureCustomizedStreamBlock and every feature context
(no request, no registry for the site, or any registry state), each
(name, block) entry returned by the `child_blocks` property is an entry of
the declared `_child_blocks` base set. -/
theorem C1_visible_subset_base (s : FeatureCustomizedStreamBlock) (ctx : FeatureContext)
    (p : String × ChildBlock) (hp : p ∈ s.child_blocks ctx) : p ∈ s._child_blocks := by
  cases ctx with
  | noRequest => exact hp
  | noFeatureRegistry => exact hp
  | registry feature_is_enabled => exact List.mem_of_mem_filter hp

/-- C1 witness: the theorem applied to a concrete container under a concrete
registry. -/
theorem C1_witness :
    (("quux_widget", (⟨"Quux", "Basic"⟩ : ChildBlock)) ∈
        c1Example.child_blocks (FeatureContext.registry (fun _ => true))) ∧
      ("quux_widget", (⟨"Quux", "Basic"⟩ : ChildBlock)) ∈ c1Example._child_blocks :=
  ⟨by decide, C1_visible_subset_base c1Example (FeatureContext.registry (fun _ => true))
    ("quux_widget", ⟨"Quux", "Basic"⟩) (by decide)⟩

/-- C3: resolution fails open — with no bound request, and likewise with a
request whose site has no feature registry, the `child_blocks` property is
the full declared `_child_blocks` list (order-sensitive equality). -/
theorem C3_fail_open_contexts (s : FeatureCustomizedStreamBlock) :
    s.child_blocks FeatureContext.noRequest = s._child_blocks ∧
      s.child_blocks FeatureContext.noFeatureRegistry = s._child_blocks :=
  ⟨rfl, rfl⟩

/-- C9: under a registry that disables every feature key, the visible child
set is empty. -/
theorem C9_all_disabled_empty (s : FeatureCustomizedStreamBlock)
    (feature_is_enabled : String → Bool)
    (hall : ∀ name, feature_is_enabled name = false) :
    s.child_blocks (FeatureContext.registry feature_is_enabled) = [] := by
  simp only [child_blocks]
  rw [List.filter_eq_nil_iff]
  intro a _
  simp [hall a.1]

/-- C9 witness: the theorem applied to a concrete container and the
all-disabled registry. -/
theorem C9_witness :
    (∀ name, (fun _ : String => false) name = false) ∧
      c9Example.child_blocks (FeatureContext.registry (fun _ => false)) = [] :=
  ⟨fun _ => rfl, C9_all_disabled_empty c9Example (fun _ => false) (fun _ => rfl)⟩

/-- C4: whenever some visible child's group is missing from
`GROUP_SORT_VALUES`, `sorted_child_blocks` returns an
`UnknownBlockGroupError` whose message names an offending group (a group of
a visible child that is not in the table); the child is never skipped or
ranked by default. -/
theorem C4_unknown_group_error (s : FeatureCustomizedStreamBlock) (ctx : FeatureContext)
    (h : ∃ p ∈ s.child_blocks ctx, groupSortValue p.2.group = none) :
    ∃ g, (∃ p ∈ s.child_blocks ctx, p.2.group = g) ∧ groupSortValue g = none ∧
      s.sorted_child_blocks ctx = Except.error ⟨unknownGroupMessage g⟩ := by
  obtain ⟨p, hp, hnone⟩ := h
  have hmem : p.2 ∈ sortBy (fun a b => strLt a.label b.label)
      ((s.child_blocks ctx).map (fun q => q.2)) :=
    (mem_sortBy _ _ _).mpr (List.mem_map_of_mem (fun q => q.2) hp)
  obtain ⟨g, ⟨c, hc, hcg⟩, hgnone, herr⟩ := decorateAll_error_of_mem hmem hnone
  refine ⟨g, ?_, hgnone, ?_⟩
  · have hcmap : c ∈ (s.child_blocks ctx).map (fun q => q.2) := (mem_sortBy _ _ _).mp hc
    obtain ⟨q, hq, hqc⟩ := List.mem_map.mp hcmap
    exact ⟨q, hq, by rw [hqc]; exact hcg⟩
  · simp only [sorted_child_blocks]
    rw [herr]

/-- Every child in a successful `sorted_child_blocks` output has a known
group, and the output is pairwise ordered by group rank, with equal ranks
ordered by label (ties keeping the stable order of the label pass). -/
theorem sorted_output_pairwise (s : FeatureCustomizedStreamBlock) (ctx : FeatureContext)
    (l : List ChildBlock) (h : s.sorted_child_blocks ctx = Except.ok l) :
    (∀ c ∈ l, ∃ r, groupSortValue c.group = some r) ∧
      l.Pairwise (fun a b => rankOf a.group < rankOf b.group ∨
        (rankOf a.group = rankOf b.group ∧ ¬(b.label < a.label))) := by
  obtain ⟨d, hl, hranks, hpw⟩ := sorted_child_blocks_ok_struct s ctx l h
  subst hl
  constructor
  · intro c hc
    obtain ⟨p, hp, hpc⟩ := List.mem_map.mp hc
    exact ⟨p.1, by rw [← hpc]; exact hranks p hp⟩
  · rw [List.pairwise_map]
    refine hpw.imp_of_mem ?_
    intro a b ha hb hM
    have hra : rankOf a.2.group = a.1 := by simp [rankOf, hranks a ha]
    have hrb : rankOf b.2.group = b.1 := by simp [rankOf, hranks b hb]
    rcases hM with hlt | ⟨heq, hle⟩
    · exact Or.inl (by rw [hra, hrb]; exact hlt)
    · exact Or.inr ⟨by rw [hra, hrb]; exact heq, hle⟩

/-- C2 (amended): in a successful `sorted_child_blocks` output, for children
at two positions with different groups, the earlier position has the
strictly smaller group rank (and conversely); for two positions with the
same group and distinct labels, the earlier position has the
lexicographically smaller label (and conversely).  (Children with equal
group and equal label keep their stable relative order, which is why the
labels-distinct proviso is needed.) -/
theorem C2_sorting_law (s : FeatureCustomizedStreamBlock) (ctx : FeatureContext)
    (l : List ChildBlock) (h : s.sorted_child_blocks ctx = Except.ok l)
    (i j : Fin l.length) :
    ((l.get i).group ≠ (l.get j).group →
      ((i : Nat) < (j : Nat) ↔ rankOf (l.get i).group < rankOf (l.get j).group)) ∧
    ((l.get i).group = (l.get j).group → (l.get i).label ≠ (l.get j).label →
      ((i : Nat) < (j : Nat) ↔ (l.get i).label < (l.get j).label)) := by
  obtain ⟨hknown, hpw⟩ := sorted_output_pairwise s ctx l h
  have hget := List.pairwise_iff_get.mp hpw
  obtain ⟨ra, hra⟩ := hknown (l.get i) (l.get_mem i.1 i.2)
  obtain ⟨rb, hrb⟩ := hknown (l.get j) (l.get_mem j.1 j.2)
  have hrai : rankOf (l.get i).group = ra := by
    simp only [rankOf, hra, Option.getD_some]
  have hrbj : rankOf (l.get j).group = rb := by
    simp only [rankOf, hrb, Option.getD_some]
  constructor
  · intro hgroups
    have hrne : ra ≠ rb := by
      intro hcon
      exact hgroups (groupSortValue_inj hra (hcon ▸ hrb))
    rw [hrai, hrbj]
    constructor
    · intro hij
      rcases hget i j hij with hlt | ⟨heq, _⟩
      · rwa [hrai, hrbj] at hlt
      · rw [hrai, hrbj] at heq
        exact absurd heq hrne
    · intro hrab
      rcases lt_trichotomy (i : Nat) (j : Nat) with hij | hij | hij
      · exact hij
      · exact absurd (congrArg (fun k => (l.get k).group) (Fin.ext hij)) hgroups
      · rcases hget j i hij with hlt | ⟨heq, _⟩
        · rw [hrai, hrbj] at hlt
          exact absurd (lt_trans hrab hlt) (lt_irrefl ra)
        · rw [hrai, hrbj] at heq
          exact absurd heq.symm hrne
  · intro hgroups hlabels
    have hreq : ra = rb := by
      have hsame : groupSortValue (l.get i).group = some rb := by
        rw [hgroups]
        exact hrb
      exact Option.some_injective Nat (hra.symm.trans hsame)
    constructor
    · intro hij
      rcases hget i j hij with hlt | ⟨_, hle⟩
      · rw [hrai, hrbj, hreq] at hlt
        exact absurd hlt (lt_irrefl rb)
      · exact lt_of_le_of_ne (not_lt.mp hle) hlabels
    · intro hlab
      rcases lt_trichotomy (i : Nat) (j : Nat) with hij | hij | hij
      · exact hij
      · exact absurd (congrArg (fun k => (l.get k).label) (Fin.ext hij)) hlabels
      · rcases hget j i hij with hlt | ⟨_, hle⟩
        · rw [hrai, hrbj, hreq] at hlt
          exact absurd hlt (lt_irrefl rb)
        · exact absurd hlab hle

/-- C2 counterexample: with two same-group children both labelled "Same",
the sorted output places one occurrence before the other (positions 0 and 1)
although "Same" is not lexicographically smaller than "Same", so the
claimed biconditional "A precedes B iff A.label precedes B.label" fails for
this same-group pair. -/
theorem C2_counterexample :
    c2DupExample.sorted_child_blocks FeatureContext.noRequest =
      Except.ok [⟨"Same", "Basic"⟩, ⟨"Same", "Basic"⟩] ∧
    ¬((0 : Nat) < 1 ↔ ("Same" : String) < "Same") := by
  refine ⟨rfl, fun hiff => ?_⟩
  exact absurd (hiff.mp (by decide)) (lt_irrefl ("Same" : String))

/-- C2 witness: the amended law applied to the scenario container, whose
output is [B, A, C] as the claim states, at the same-group pair (B, A). -/
theorem C2_witness :
    scenarioBlock.sorted_child_blocks FeatureContext.noRequest =
      Except.ok scenarioSorted ∧
    (scenarioSorted.get ⟨0, by decide⟩).group = (scenarioSorted.get ⟨1, by decide⟩).group ∧
    (scenarioSorted.get ⟨0, by decide⟩).label ≠ (scenarioSorted.get ⟨1, by decide⟩).label ∧
    ((0 : Nat) < 1 ↔
      (scenarioSorted.get ⟨0, by decide⟩).label < (scenarioSorted.get ⟨1, by decide⟩).label) := by
  refine ⟨rfl, rfl, by decide, ?_⟩
  exact (C2_sorting_law scenarioBlock FeatureContext.noRequest scenarioSorted rfl
    ⟨0, by decide⟩ ⟨1, by decide⟩).2 rfl (by decide)

/-- C10: a block with no group (empty-string group) is valid for sorting and
has rank 0, the lowest rank in `GROUP_SORT_VALUES`, and in every successful
`sorted_child_blocks` output every ungrouped child precedes every child with
a named (non-empty) group. -/
theorem C10_ungrouped_first (s : FeatureCustomizedStreamBlock) (ctx : FeatureContext)
    (l : List ChildBlock) (h : s.sorted_child_blocks ctx = Except.ok l)
    (i j : Fin l.length)
    (hi : (l.get i).group = "") (hj : (l.get j).group ≠ "") :
    groupSortValue "" = some 0 ∧ (∀ p ∈ GROUP_SORT_VALUES, p.1 ≠ "" → 0 < p.2) ∧
      (i : Nat) < (j : Nat) := by
  refine ⟨by decide, by decide, ?_⟩
  obtain ⟨hknown, hpw⟩ := sorted_output_pairwise s ctx l h
  have hget := List.pairwise_iff_get.mp hpw
  have hrai : rankOf (l.get i).group = 0 := by rw [hi]; rfl
  obtain ⟨rb, hrb⟩ := hknown (l.get j) (l.get_mem j.1 j.2)
  have hrbj : rankOf (l.get j).group = rb := by
    simp only [rankOf, hrb, Option.getD_some]
  have hrbne : rb ≠ 0 := by
    intro hcon
    subst hcon
    exact hj (groupSortValue_inj hrb (by decide))
  rcases lt_trichotomy (i : Nat) (j : Nat) with hij | hij | hij
  · exact hij
  · rw [congrArg (fun k => (l.get k).group) (Fin.ext hij)] at hi
    exact absurd hi hj
  · rcases hget j i hij with hlt | ⟨heq, _⟩
    · rw [hrai, hrbj] at hlt
      exact absurd hlt (Nat.not_lt_zero rb)
    · rw [hrai, hrbj] at heq
      exact absurd heq hrbne

/-- C10 witness: the theorem applied to the concrete mixed container. -/
theorem C10_witness :
    c10Example.sorted_child_blocks FeatureContext.noRequest = Except.ok c10Sorted ∧
    (c10Sorted.get ⟨0, by decide⟩).group = "" ∧
    (c10Sorted.get ⟨1, by decide⟩).group ≠ "" ∧
    (groupSortValue "" = some 0 ∧ (∀ p ∈ GROUP_SORT_VALUES, p.1 ≠ "" → 0 < p.2) ∧
      (0 : Nat) < 1) := by
  refine ⟨rfl, rfl, by decide, ?_⟩
  exact C10_ungrouped_first c10Example FeatureContext.noRequest c10Sorted rfl
    ⟨0, by decide⟩ ⟨1, by decide⟩ rfl (by decide)

/-- C4 witness: the theorem applied to the concrete typoed container. -/
theorem C4_witness :
    (∃ p ∈ c4Example.child_blocks FeatureContext.noRequest,
        groupSortValue p.2.group = none) ∧
      ∃ g, (∃ p ∈ c4Example.child_blocks FeatureContext.noRequest, p.2.group = g) ∧
        groupSortValue g = none ∧
        c4Example.sorted_child_blocks FeatureContext.noRequest =
          Except.error ⟨unknownGroupMessage g⟩ :=
  ⟨⟨("typoed_widget", ⟨"Typoed", "Basick"⟩), by decide, by decide⟩,
    C4_unknown_group_error c4Example FeatureContext.noRequest
      ⟨("typoed_widget", ⟨"Typoed", "Basick"⟩), by decide, by decide⟩⟩

/-- C5: full-form and sub-form layout types resolve to the same machine
name: for the two-column pair and the three-column pair, both
`get_block_machine_name` and the first element of `get_block_tuple` agree
across the pair, with values 'two_column_layout' and 'three_column_layout'
respectively. -/
theorem C5_machine_names :
    BaseTwoColumnBlock.get_block_machine_name =
        BaseTwoColumnSubBlock.get_block_machine_name ∧
    BaseTwoColumnBlock.get_block_tuple_fst = BaseTwoColumnSubBlock.get_block_tuple_fst ∧
    BaseTwoColumnBlock.get_block_machine_name = BaseTwoColumnBlock.get_block_tuple_fst ∧
    BaseTwoColumnBlock.get_block_machine_name = "two_column_layout" ∧
    BaseThreeColumnBlock.get_block_machine_name =
        BaseThreeColumnSubBlock.get_block_machine_name ∧
    BaseThreeColumnBlock.get_block_tuple_fst =
        BaseThreeColumnSubBlock.get_block_tuple_fst ∧
    BaseThreeColumnBlock.get_block_machine_name =
        BaseThreeColumnBlock.get_block_tuple_fst ∧
    BaseThreeColumnBlock.get_block_machine_name = "three_column_layout" :=
  ⟨rfl, rfl, rfl, rfl, rfl, rfl, rfl, rfl⟩

/-- C7: for each styled block (ImagePanelBlock, ImageGalleryBlock,
SectionTitleBlock), a populated value whose style key matches no declared
style renders through the generic `render_basic` fallback instead of
raising. -/
theorem C7_unknown_style_falls_back (style : String) (columns : Nat)
    (h₁ : ∀ st ∈ ImagePanelBlock.STYLES, st.1 ≠ style)
    (h₂ : ∀ st ∈ ImageGalleryBlock.STYLES, st.1 ≠ style)
    (h₃ : ∀ st ∈ SectionTitleBlock.STYLES, st.1 ≠ style) :
    ImagePanelBlock.render style = RenderResult.basic ∧
    ImageGalleryBlock.render style columns = GalleryRenderResult.basic ∧
    SectionTitleBlock.render style = SectionTitleRenderResult.basic := by
  have f₁ : ImagePanelBlock.STYLES.find? (fun st => st.1 == style) = none :=
    List.find?_eq_none.mpr (fun x hx => by simpa using h₁ x hx)
  have f₂ : ImageGalleryBlock.STYLES.find? (fun st => st.1 == style) = none :=
    List.find?_eq_none.mpr (fun x hx => by simpa using h₂ x hx)
  have f₃ : SectionTitleBlock.STYLES.find? (fun p => p.1 == style) = none :=
    List.find?_eq_none.mpr (fun x hx => by simpa using h₃ x hx)
  refine ⟨?_, ?_, ?_⟩
  · simp [ImagePanelBlock.render, ImagePanelBlock.style_to_template_map, f₁]
  · simp [ImageGalleryBlock.render, ImageGalleryBlock.style_to_template_map, f₂]
  · simp [SectionTitleBlock.render, f₃]

/-- C7 witness: the theorem applied to the concrete unknown style
'bogus_style'. -/
theorem C7_witness :
    (∀ st ∈ ImagePanelBlock.STYLES, st.1 ≠ "bogus_style") ∧
    (∀ st ∈ ImageGalleryBlock.STYLES, st.1 ≠ "bogus_style") ∧
    (∀ st ∈ SectionTitleBlock.STYLES, st.1 ≠ "bogus_style") ∧
    (ImagePanelBlock.render "bogus_style" = RenderResult.basic ∧
      ImageGalleryBlock.render "bogus_style" 3 = GalleryRenderResult.basic ∧
      SectionTitleBlock.render "bogus_style" = SectionTitleRenderResult.basic) :=
  ⟨by decide, by decide, by decide,
    C7_unknown_style_falls_back "bogus_style" 3 (by decide) (by decide) (by decide)⟩

/-- Assignment always leaves the assigned key present with the assigned
value. -/
theorem odAssign_self_mem (d : List (String × ChildBlock)) (name : String)
    (b : ChildBlock) : (name, b) ∈ odAssign d name b := by
  simp only [odAssign]
  by_cases h : d.any (fun p => p.1 == name) = true
  · rw [if_pos h]
    obtain ⟨p, hp, hpb⟩ := List.any_eq_true.mp h
    refine List.mem_map.mpr ⟨p, hp, ?_⟩
    rw [if_pos hpb]
  · rw [if_neg h]
    exact List.mem_append_right _ (List.mem_singleton.mpr rfl)

/-- Assignment preserves the presence of every key already in the dict. -/
theorem odAssign_key_mono (d : List (String × ChildBlock)) (n₂ name : String)
    (b₂ b : ChildBlock) (h : (name, b) ∈ d) :
    ∃ c, (name, c) ∈ odAssign d n₂ b₂ := by
  simp only [odAssign]
  by_cases hany : d.any (fun p => p.1 == n₂) = true
  · rw [if_pos hany]
    by_cases heq : (((name, b) : String × ChildBlock).1 == n₂) = true
    · have hn : name = n₂ := by simpa using heq
      subst hn
      exact ⟨b₂, List.mem_map.mpr ⟨(name, b), h, by rw [if_pos heq]⟩⟩
    · exact ⟨b, List.mem_map.mpr ⟨(name, b), h, by rw [if_neg heq]⟩⟩
  · rw [if_neg hany]
    exact ⟨b, List.mem_append_left _ h⟩

/-- Presence of a key persists through the assignment fold of `__init__`. -/
theorem foldl_key_mono :
    ∀ (local_blocks : List (String × ChildBlock)) (d : List (String × ChildBlock))
      (name : String) (b : ChildBlock), (name, b) ∈ d →
      ∃ c, (name, c) ∈ local_blocks.foldl (fun acc q => odAssign acc q.1 q.2) d
  | [], _, _, b, h => ⟨b, h⟩
  | q :: rest, d, name, b, h => by
    simp only [List.foldl_cons]
    obtain ⟨c, hc⟩ := odAssign_key_mono d q.1 name q.2 b h
    exact foldl_key_mono rest (odAssign d q.1 q.2) name c hc

/-- Every name declared in `local_blocks` has an entry in the dict built by
the assignment fold, whatever the accumulated dict. -/
theorem key_mem_foldl :
    ∀ (local_blocks : List (String × ChildBlock)) (d : List (String × ChildBlock))
      (p : String × ChildBlock), p ∈ local_blocks →
      ∃ c, (p.1, c) ∈ local_blocks.foldl (fun acc q => odAssign acc q.1 q.2) d
  | [], _, p, hp => absurd hp (List.not_mem_nil p)
  | q :: rest, d, p, hp => by
    simp only [List.foldl_cons]
    rcases List.mem_cons.mp hp with h | h
    · subst h
      exact foldl_key_mono rest (odAssign d p.1 p.2) p.1 p.2 (odAssign_self_mem d p.1 p.2)
    · exact key_mem_foldl rest (odAssign d q.1 q.2) p h

/-- C8 (amended): construction performs no group validation and never
raises — every name declared in `local_blocks` gets an entry in the
`_child_blocks` set assembled by `__init__`, whatever its group; the
unknown-group configuration error is raised only later, at resolution time,
by `sorted_child_blocks`. -/
theorem C8_construction_is_total (s : FeatureCustomizedStreamBlock)
    (p : String × ChildBlock) (hp : p ∈ s.local_blocks) :
    ∃ c, (p.1, c) ∈ s._child_blocks :=
  key_mem_foldl s.local_blocks s.base_blocks p hp

/-- C8 counterexample: the unknown-group error is not raised at
construction — `__init__` assembles the full `_child_blocks` set for a
container with the unknown group "Bogus Group", and the
`UnknownBlockGroupError` only appears when `sorted_child_blocks` resolves
the children. -/
theorem C8_counterexample :
    c8Example._child_blocks = [("mistyped_widget", ⟨"Mistyped", "Bogus Group"⟩)] ∧
    c8Example.sorted_child_blocks FeatureContext.noRequest =
      Except.error ⟨unknownGroupMessage "Bogus Group"⟩ :=
  ⟨rfl, rfl⟩

/-- C8 witness: the amended construction theorem applied to the concrete
mistyped container. -/
theorem C8_witness :
    (("mistyped_widget", (⟨"Mistyped", "Bogus Group"⟩ : ChildBlock)) ∈
        c8Example.local_blocks) ∧
      ∃ c, ("mistyped_widget", c) ∈ c8Example._child_blocks :=
  ⟨by decide, C8_construction_is_total c8Example
    ("mistyped_widget", ⟨"Mistyped", "Bogus Group"⟩) (by decide)⟩

end Jetstream
